import Mathlib

/-!
# Verification of the mhtml2html core (src/mht2html.mjs)

A shallow embedding of the core of `src/mht2html.mjs`:

* JavaScript strings are modelled as `List Char` (sequences of Unicode
  scalar values); the handful of JS string primitives the code uses
  (`indexOf`, `substring`, `split`, `join`, quote stripping) are given
  faithful executable models below.
* The host TextDecoder objects, `escape`, `encodeURIComponent`, `btoa`,
  the DOM parser and the HTML serializer are external black boxes of the
  program; they are threaded through as components of a `JSEnv` record.
  `btoa` may fail (it throws in JS); a `none` result models the throw.
* Mutable JS objects whose identity matters (MIME part assets and the
  media-map objects) live in an explicit `Store`; maps hold asset
  indices, so "the same object in both maps" is index equality.
* The two unbounded recursions of the source (`replaceReferences` on a
  stylesheet that references itself, and iframe conversion cycles, the
  spec's section 9 open question) are made total with an explicit fuel
  parameter; running out of fuel is a distinguished error that never
  occurs in any run considered by the theorems.
-/

set_option maxRecDepth 4000

abbrev Str := List Char

/-- The single-quote character, written via its code point. -/
def squote : Char := Char.ofNat 39

/-- The double-quote character, written via its code point. -/
def dquote : Char := Char.ofNat 34

/-- `pre` is a leading piece of `s` (JS `s.indexOf(pre) === 0`). -/
def hasPrefixL : Str → Str → Bool
  | [], _ => true
  | _ :: _, [] => false
  | a :: as, b :: bs => a == b && hasPrefixL as bs

/-- First position (from the left) at which `sub` occurs in `s`. -/
def findSubIdx (sub : Str) : Str → Option Nat
  | [] => if sub.isEmpty then some 0 else none
  | c :: rest =>
      if hasPrefixL sub (c :: rest) then some 0
      else (findSubIdx sub rest).map (· + 1)

/-- JS `s.indexOf(sub, start)`: `-1` when `sub` does not occur at or
after position `start`. -/
def jsIndexOf (s sub : Str) (start : Nat) : Int :=
  match findSubIdx sub (s.drop start) with
  | none => -1
  | some k => (k + start : Nat)

/-- JS `s.includes(sub)`. -/
def jsIncludes (s sub : Str) : Bool :=
  (findSubIdx sub s).isSome

/-- Clamp an argument of JS `substring` into `[0, len]`. -/
def clampIdx (len : Nat) (x : Int) : Nat :=
  (min (max x 0) (len : Int)).toNat

/-- JS `s.substring(a, b)`: both arguments are clamped into the string
and swapped when out of order. -/
def jsSubstring (s : Str) (a b : Int) : Str :=
  let a' := clampIdx s.length a
  let b' := clampIdx s.length b
  (s.take (max a' b')).drop (min a' b')

/-- JS `s.split(sep)` for a one-character separator: always returns at
least one (possibly empty) piece. -/
def splitOnChar (sep : Char) : Str → List Str
  | [] => [[]]
  | c :: rest =>
      match splitOnChar sep rest with
      | [] => [[c]]
      | h :: t => if c == sep then [] :: h :: t else (c :: h) :: t

/-- JS `s.split(sub)` for a non-empty separator substring. -/
def splitOnSub (sub : Str) : Str → List Str
  | [] => [[]]
  | c :: rest =>
      if hasPrefixL sub (c :: rest) then
        match splitOnSub sub (rest.drop (sub.length - 1)) with
        | [] => [[]]
        | pieces => [] :: pieces
      else
        match splitOnSub sub rest with
        | [] => [[c]]
        | h :: t => (c :: h) :: t
termination_by s => s.length
decreasing_by
  · simp only [List.length_cons, List.length_drop]; omega
  · simp only [List.length_cons]; omega

/-- JS `array.join('/')`. -/
def joinSlash : List Str → Str
  | [] => []
  | [x] => x
  | x :: xs => x ++ '/' :: joinSlash xs

/-- JS `array.pop()` on the array value: removes the last element, a
no-op on an empty array. -/
def jsPop (l : List Str) : List Str := l.dropLast

/-! ## Quoted-printable decoder (`decodeQuotedPrintable`, lines 31-65)

The three stages are the three chained `.replace` calls of the source.
A byte-to-text decoder (`TextDecoder.decode`) is an external black box
of type `List Nat → Str`. -/

/-- A JS regex line terminator, as matched by `$` under the `m` flag. -/
def isJSLineTerm (c : Char) : Bool :=
  c == '\n' || c == '\r' || c == Char.ofNat 0x2028 || c == Char.ofNat 0x2029

/-- `$`-position test: end of input or just before a line terminator. -/
def atLineEnd : Str → Bool
  | [] => true
  | c :: _ => isJSLineTerm c

/-- Stage 1, `.replace(/[\t\x20]$/gm, '')`: delete every space or tab
that stands immediately before a line end.  Each match of the regex is
a single character, so at most one trailing blank is deleted per line. -/
def stripTrailBlank : Str → Str
  | [] => []
  | c :: rest =>
      if (c == ' ' || c == '\t') && atLineEnd rest then stripTrailBlank rest
      else c :: stripTrailBlank rest

/-- Stage 2, `.replace(/=(?:\r\n?|\n|$)/g, '')`: delete soft line
breaks (`=` before CRLF, CR, LF, or the end of the input). -/
def removeSoftBreaks : Str → Str
  | [] => []
  | '=' :: '\r' :: '\n' :: rest => removeSoftBreaks rest
  | '=' :: '\r' :: rest => removeSoftBreaks rest
  | '=' :: '\n' :: rest => removeSoftBreaks rest
  | ['='] => []
  | c :: rest => c :: removeSoftBreaks rest

/-- `[a-fA-F0-9]`. -/
def isHexDigitJS (c : Char) : Bool :=
  ('0' ≤ c && c ≤ '9') || ('a' ≤ c && c ≤ 'f') || ('A' ≤ c && c ≤ 'F')

/-- Numeric value of a hex digit (`parseInt(hex, 16)` on one digit). -/
def hexVal (c : Char) : Nat :=
  if '0' ≤ c && c ≤ '9' then c.toNat - '0'.toNat
  else if 'a' ≤ c && c ≤ 'f' then c.toNat - 'a'.toNat + 10
  else if 'A' ≤ c && c ≤ 'F' then c.toNat - 'A'.toNat + 10
  else 0

/-- Collect the maximal run of `=XX` hex escape groups at the head of
the string, returning the gathered bytes and the rest of the string. -/
def qpRun : Str → List Nat × Str
  | [] => ([], [])
  | c :: rest =>
      match rest with
      | h1 :: h2 :: rest' =>
          if c = '=' ∧ isHexDigitJS h1 ∧ isHexDigitJS h2 then
            let r := qpRun rest'
            ((hexVal h1 * 16 + hexVal h2) :: r.1, r.2)
          else ([], c :: rest)
      | _ => ([], c :: rest)

theorem qpRun_length_le : ∀ l : Str, (qpRun l).2.length ≤ l.length
  | [] => by simp [qpRun]
  | [c] => by simp [qpRun]
  | [c, d] => by simp [qpRun]
  | c :: h1 :: h2 :: rest => by
      by_cases h : c = '=' ∧ isHexDigitJS h1 ∧ isHexDigitJS h2
      · have ih := qpRun_length_le rest
        simp only [qpRun, if_pos h, List.length_cons]
        omega
      · simp [qpRun, if_neg h]

/-- Stage 3, `.replace(/(=[a-fA-F0-9]{2}){1,}/g, dec)`: replace every
maximal run of `=XX` groups by the decoder applied to the whole byte
run at once. -/
def decodeEscapeRuns (dec : List Nat → Str) : Str → Str
  | [] => []
  | [c] => [c]
  | [c, d] => [c, d]
  | c :: h1 :: h2 :: rest' =>
      if c = '=' ∧ isHexDigitJS h1 ∧ isHexDigitJS h2 then
        let r := qpRun rest'
        dec ((hexVal h1 * 16 + hexVal h2) :: r.1) ++ decodeEscapeRuns dec r.2
      else c :: decodeEscapeRuns dec (h1 :: h2 :: rest')
termination_by l => l.length
decreasing_by
  · have := qpRun_length_le rest'
    simp only [List.length_cons]
    omega
  · simp only [List.length_cons]; omega

/-- `enc.toUpperCase()` (ASCII case map suffices for the encodings the
program recognizes). -/
def jsToUpper (s : Str) : Str := s.map Char.toUpper

/-- `decodeQuotedPrintable(input, enc)` (lines 31-65): pick the gbk or
utf-8 decoder by `enc.toUpperCase() === 'GBK'`, then run the three
replace stages. -/
def decodeQuotedPrintable (utf8Dec gbkDec : List Nat → Str)
    (input : Str) (enc : Str) : Str :=
  let dec := if jsToUpper enc = "GBK".data then gbkDec else utf8Dec
  decodeEscapeRuns dec (removeSoftBreaks (stripTrailBlank input))

/-! ## URL resolver (`absoluteURL`, lines 82-106) -/

/-- The body of the `for` loop of `absoluteURL`, iterating over the
segments of the relative path. -/
def urlLoop (stack : List Str) : List Str → List Str
  | [] => stack
  | p :: ps =>
      if p = ".".data then urlLoop stack ps
      else if p = "..".data then urlLoop (jsPop stack) ps
      else urlLoop (stack ++ [p]) ps

/-- `absoluteURL(base, relative)` (lines 82-106). -/
def absoluteURL (base relative : Str) : Str :=
  if hasPrefixL "http://".data relative || hasPrefixL "https://".data relative then
    relative
  else
    let stack := splitOnChar '/' base
    let parts := splitOnChar '/' relative
    joinSlash (urlLoop (jsPop stack) parts)

/-- Modelled from the spec, section 4.3: split `base` into path
segments on `/`, drop the last segment, then fold over `relative`'s
segments: `.` is a no-op, `..` pops one segment, anything else is
pushed; join with `/`.  Used only to compare the code's resolver
against the spec's description. -/
def resolveSpec (base relative : Str) : Str :=
  if hasPrefixL "http://".data relative || hasPrefixL "https://".data relative then
    relative
  else
    let stack := (splitOnChar '/' base).dropLast
    let segs := splitOnChar '/' relative
    joinSlash (segs.foldl
      (fun st p =>
        if p = ".".data then st
        else if p = "..".data then st.dropLast
        else st ++ [p]) stack)

theorem urlLoop_eq_foldl (parts : List Str) : ∀ stack : List Str,
    urlLoop stack parts = parts.foldl
      (fun st p =>
        if p = ".".data then st
        else if p = "..".data then st.dropLast
        else st ++ [p]) stack := by
  induction parts with
  | nil => intro stack; simp [urlLoop]
  | cons p ps ih =>
      intro stack
      by_cases h1 : p = ".".data
      · simp [urlLoop, h1, ih]
      · by_cases h2 : p = "..".data
        · simp [urlLoop, h1, h2, ih, jsPop]
        · simp [urlLoop, h1, h2, ih]

/-! ## Assets and maps

A `MimePart` asset (the object literal of lines 360-365).  Asset
objects are mutable and shared between the two maps, so maps store
indices into an asset list; two map entries holding the same index
hold the same object. -/

structure AssetVal where
  encoding : Str
  type : Str
  data : Str
  id : Option Str
deriving Repr, DecidableEq, Inhabited

/-- A JS object used as a string-keyed map, holding asset indices.
Entries are kept in insertion order, keys are unique. -/
abbrev MapVal := List (Str × Nat)

/-- Property read `m[k]`: the entry for key `k`, if any. -/
def mapFind (m : MapVal) (k : Str) : Option Nat :=
  match m with
  | [] => none
  | (k', v) :: rest => if k' = k then some v else mapFind rest k

/-- Property write `m[k] = v`: an existing key keeps its position and
gets the new value; a new key is appended. -/
def mapSet (m : MapVal) (k : Str) (v : Nat) : MapVal :=
  match m with
  | [] => [(k, v)]
  | (k', v') :: rest => if k' = k then (k', v) :: rest else (k', v') :: mapSet rest k v

theorem mapFind_mapSet (m : MapVal) (k k' : Str) (v : Nat) :
    mapFind (mapSet m k v) k' = if k = k' then some v else mapFind m k' := by
  induction m with
  | nil =>
      by_cases h : k = k' <;> simp [mapFind, mapSet, h]
  | cons e rest ih =>
      obtain ⟨ek, ev⟩ := e
      by_cases h1 : ek = k
      · subst h1
        by_cases h2 : ek = k' <;> simp [mapFind, mapSet, h2]
      · by_cases h2 : ek = k'
        · subst h2
          have hkk : ¬ k = ek := fun h => h1 h.symm
          simp [mapFind, mapSet, h1, hkk]
        · simp [mapFind, mapSet, h1, h2, ih]

theorem mapFind_append (m1 m2 : MapVal) (k : Str) :
    mapFind (m1 ++ m2) k =
      match mapFind m1 k with
      | some v => some v
      | none => mapFind m2 k := by
  induction m1 with
  | nil => simp [mapFind]
  | cons e rest ih =>
      obtain ⟨ek, ev⟩ := e
      by_cases h : ek = k <;> simp [mapFind, h, ih]

/-! ## The multipart parser, content-registration level
(`parse`, lines 172-424)

The claims about `parse` concern the `MTHML_CONTENT` state (lines
322-385): what happens once the headers of one part have been
accumulated.  A `RawPart` is the per-part outcome of the line-level
header accumulation: the four recognized content headers (each
possibly absent) together with the part's decoded body as accumulated
by the `MHTML_DATA` state.  `contentStep` is a faithful transcription
of the content-state body for one part; `parseParts` folds it over the
part sequence, mirroring the `CONTENT → DATA → CONTENT → … → END` loop
of the machine.  Assertion failures carry the message of the
corresponding `assert` call (without the line-number suffix). -/

structure RawPart where
  encoding : Option Str
  type : Option Str
  id : Option Str
  location : Option Str
  body : Str
deriving Repr, DecidableEq

structure ParseState where
  assets : List AssetVal
  frames : MapVal
  media : MapVal
  index : Option Str
deriving Repr, DecidableEq

def initParseState : ParseState := ⟨[], [], [], none⟩

/-- The assertion cascade of the `MTHML_CONTENT` state in source
order (lines 335-358): establish the index on the first part
(`index = location`, then `assert(index defined && type ===
'text/html')`, message `Index not found`), then `assert` id-or-location,
Content-Transfer-Encoding and Content-Type.  Returns the index value
the state carries on.  All asserts precede every mutation of the part
registries, and a thrown assert aborts the whole parse, so checking
them up front is behaviorally identical to the source. -/
def contentGuards (st : ParseState) (p : RawPart) : Except String Str :=
  match st.index with
  | some ix =>
      if p.id = none ∧ p.location = none then
        .error "ID or location header not provided"
      else if p.encoding = none then .error "Content-Transfer-Encoding not provided"
      else if p.type = none then .error "Content-Type not provided"
      else .ok ix
  | none =>
      match p.location with
      | some loc =>
          if p.type = some "text/html".data then
            if p.encoding = none then .error "Content-Transfer-Encoding not provided"
            else .ok loc
          else .error "Index not found"
      | none => .error "Index not found"

/-- The asset object built for a part (lines 360-365); the `getD`
defaults are never reached on a part that passed the assertions. -/
def partAsset (p : RawPart) : AssetVal :=
  ⟨p.encoding.getD [], p.type.getD [], p.body, p.id⟩

/-- One round of the `MTHML_CONTENT` state after its blank line (lines
330-383): run the assertion cascade, build the asset object, and
register it in the frame map by id (unconditionally, lines 368-370)
and in the media map by location (only when the location is not yet
occupied, lines 373-378). -/
def contentStep (st : ParseState) (p : RawPart) : Except String ParseState :=
  match contentGuards st p with
  | .error e => .error e
  | .ok ix =>
      let assetIdx := st.assets.length
      let frames :=
        match p.id with
        | some s => mapSet st.frames s assetIdx
        | none => st.frames
      let media :=
        match p.location with
        | some s =>
            if mapFind st.media s = none then st.media ++ [(s, assetIdx)]
            else st.media
        | none => st.media
      .ok ⟨st.assets ++ [partAsset p], frames, media, some ix⟩

/-- The part-sequence level of `parse`: fold the content state over
the parts in input order. -/
def parseParts (ps : List RawPart) : Except String ParseState :=
  ps.foldlM contentStep initParseState

/-- Index of the first part satisfying `f`. -/
def firstIdxWith (f : RawPart → Bool) : List RawPart → Option Nat
  | [] => none
  | p :: ps => if f p then some 0 else (firstIdxWith f ps).map (· + 1)

/-- Index of the last part satisfying `f`. -/
def lastIdxWith (f : RawPart → Bool) : List RawPart → Option Nat
  | [] => none
  | p :: ps =>
      match lastIdxWith f ps with
      | some k => some (k + 1)
      | none => if f p then some 0 else none


theorem except_bind_ok_inv {α β : Type} (x : Except String α)
    (f : α → Except String β) (b : β) (h : (x >>= f) = .ok b) :
    ∃ a, x = .ok a ∧ f a = .ok b := by
  cases x with
  | error e => simp [Bind.bind, Except.bind] at h
  | ok a => exact ⟨a, rfl, by simpa [Bind.bind, Except.bind] using h⟩

theorem foldl_contentStep_cons_inv (st : ParseState) (p : RawPart)
    (ps : List RawPart) (res : ParseState)
    (h : List.foldlM contentStep st (p :: ps) = .ok res) :
    ∃ st1, contentStep st p = .ok st1 ∧ List.foldlM contentStep st1 ps = .ok res := by
  rw [List.foldlM_cons] at h
  exact except_bind_ok_inv _ _ _ h

theorem contentStep_ok_inv (st : ParseState) (p : RawPart) (st' : ParseState)
    (h : contentStep st p = .ok st') :
    st'.assets = st.assets ++ [partAsset p]
    ∧ st'.frames = (match p.id with
        | some s => mapSet st.frames s st.assets.length
        | none => st.frames)
    ∧ st'.media = (match p.location with
        | some s =>
            if mapFind st.media s = none then st.media ++ [(s, st.assets.length)]
            else st.media
        | none => st.media)
    ∧ ∃ ix, contentGuards st p = .ok ix ∧ st'.index = some ix := by
  unfold contentStep at h
  cases hg : contentGuards st p with
  | error e => rw [hg] at h; exact Except.noConfusion h
  | ok ix =>
      rw [hg] at h
      injection h with h'
      subst h'
      exact ⟨rfl, rfl, rfl, ix, rfl, rfl⟩

theorem contentGuards_eq_some (st : ParseState) (p : RawPart) (ix0 : Str)
    (hst : st.index = some ix0) :
    contentGuards st p =
      (if p.id = none ∧ p.location = none then
        .error "ID or location header not provided"
      else if p.encoding = none then .error "Content-Transfer-Encoding not provided"
      else if p.type = none then .error "Content-Type not provided"
      else .ok ix0) := by
  unfold contentGuards
  rw [hst]

theorem contentGuards_eq_none_some (st : ParseState) (p : RawPart) (loc : Str)
    (hst : st.index = none) (hloc : p.location = some loc) :
    contentGuards st p =
      (if p.type = some "text/html".data then
        (if p.encoding = none then
          (.error "Content-Transfer-Encoding not provided" : Except String Str)
        else .ok loc)
      else .error "Index not found") := by
  unfold contentGuards
  rw [hst, hloc]

theorem contentGuards_eq_none_none (st : ParseState) (p : RawPart)
    (hst : st.index = none) (hloc : p.location = none) :
    contentGuards st p = .error "Index not found" := by
  unfold contentGuards
  rw [hst, hloc]

theorem contentGuards_some_index (st : ParseState) (p : RawPart) (ix0 ix : Str)
    (hst : st.index = some ix0) (h : contentGuards st p = .ok ix) : ix = ix0 := by
  rw [contentGuards_eq_some st p ix0 hst] at h
  by_cases h1 : p.id = none ∧ p.location = none
  · rw [if_pos h1] at h; exact Except.noConfusion h
  · rw [if_neg h1] at h
    by_cases h2 : p.encoding = none
    · rw [if_pos h2] at h; exact Except.noConfusion h
    · rw [if_neg h2] at h
      by_cases h3 : p.type = none
      · rw [if_pos h3] at h; exact Except.noConfusion h
      · rw [if_neg h3] at h; injection h with h'; exact h'.symm

theorem contentGuards_none_index (st : ParseState) (p : RawPart) (ix : Str)
    (hst : st.index = none) (h : contentGuards st p = .ok ix) :
    p.location = some ix ∧ p.type = some "text/html".data := by
  cases hloc : p.location with
  | none =>
      rw [contentGuards_eq_none_none st p hst hloc] at h
      exact Except.noConfusion h
  | some loc =>
      rw [contentGuards_eq_none_some st p loc hst hloc] at h
      by_cases h2 : p.type = some "text/html".data
      · rw [if_pos h2] at h
        by_cases h3 : p.encoding = none
        · rw [if_pos h3] at h; exact Except.noConfusion h
        · rw [if_neg h3] at h
          injection h with h'
          subst h'
          exact ⟨rfl, h2⟩
      · rw [if_neg h2] at h; exact Except.noConfusion h

theorem foldl_index_stable (ps : List RawPart) : ∀ st res ix,
    List.foldlM contentStep st ps = .ok res → st.index = some ix →
    res.index = some ix := by
  induction ps with
  | nil =>
      intro st res ix h hix
      simp only [List.foldlM_nil] at h
      injection h with h'
      subst h'
      exact hix
  | cons p rest ih =>
      intro st res ix h hix
      obtain ⟨st1, h1, h2⟩ := foldl_contentStep_cons_inv st p rest res h
      obtain ⟨-, -, -, ix', hg, hidx⟩ := contentStep_ok_inv st p st1 h1
      have heq := contentGuards_some_index st p ix ix' hix hg
      rw [heq] at hidx
      exact ih st1 res ix h2 hidx

theorem foldl_assets (ps : List RawPart) : ∀ st res,
    List.foldlM contentStep st ps = .ok res →
    res.assets = st.assets ++ ps.map partAsset := by
  induction ps with
  | nil =>
      intro st res h
      simp only [List.foldlM_nil] at h
      injection h with h'
      subst h'
      simp
  | cons p rest ih =>
      intro st res h
      obtain ⟨st1, h1, h2⟩ := foldl_contentStep_cons_inv st p rest res h
      obtain ⟨ha, -, -, -⟩ := contentStep_ok_inv st p st1 h1
      rw [ih st1 res h2, ha]
      simp

theorem foldl_media_find (ps : List RawPart) : ∀ st res,
    List.foldlM contentStep st ps = .ok res →
    ∀ loc, mapFind res.media loc =
      match mapFind st.media loc with
      | some v => some v
      | none =>
          (firstIdxWith (fun q => q.location == some loc) ps).map
            (· + st.assets.length) := by
  induction ps with
  | nil =>
      intro st res h loc
      simp only [List.foldlM_nil] at h
      injection h with h'
      subst h'
      cases hm : mapFind st.media loc <;> simp [firstIdxWith, hm]
  | cons p rest ih =>
      intro st res h loc
      obtain ⟨st1, h1, h2⟩ := foldl_contentStep_cons_inv st p rest res h
      obtain ⟨ha, -, hm, -⟩ := contentStep_ok_inv st p st1 h1
      have hlen : st1.assets.length = st.assets.length + 1 := by rw [ha]; simp
      have key := ih st1 res h2 loc
      rw [key, hlen]
      cases hloc : p.location with
      | none =>
          have hm' : st1.media = st.media := by rw [hm, hloc]
          have hf : (fun q => q.location == some loc) p = false := by simp [hloc]
          rw [hm']
          cases hfind : mapFind st.media loc with
          | some v => simp [firstIdxWith, hf]
          | none =>
              simp only [firstIdxWith, hf, Bool.false_eq_true, if_neg]
              cases hfi : firstIdxWith (fun q => q.location == some loc) rest <;>
                simp [hfi] <;> omega
      | some s =>
          by_cases hs : s = loc
          · subst hs
            have hf : (fun q => q.location == some s) p = true := by simp [hloc]
            cases hfind : mapFind st.media s with
            | some v =>
                have hm' : st1.media = st.media := by rw [hm, hloc]; simp [hfind]
                rw [hm']
                simp [hfind, firstIdxWith, hf]
            | none =>
                have hm' : st1.media = st.media ++ [(s, st.assets.length)] := by
                  rw [hm, hloc]; simp [hfind]
                rw [hm']
                have hone : mapFind (st.media ++ [(s, st.assets.length)]) s =
                    some st.assets.length := by
                  rw [mapFind_append]; simp [hfind, mapFind]
                rw [hone]
                simp [hfind, firstIdxWith, hf]
          · have hf : (fun q => q.location == some loc) p = false := by
              simp [hloc, hs]
            have hmf : mapFind st1.media loc = mapFind st.media loc := by
              rw [hm, hloc]
              show mapFind
                  (if mapFind st.media s = none then st.media ++ [(s, st.assets.length)]
                   else st.media) loc = mapFind st.media loc
              split
              · rw [mapFind_append]
                cases hfind : mapFind st.media loc <;> simp [mapFind, hfind, hs]
              · rfl
            rw [hmf]
            cases hfind : mapFind st.media loc with
            | some v => simp [firstIdxWith, hf]
            | none =>
                simp only [firstIdxWith, hf, Bool.false_eq_true, if_neg]
                cases hfi : firstIdxWith (fun q => q.location == some loc) rest <;>
                  simp [hfi] <;> omega

theorem foldl_frames_find (ps : List RawPart) : ∀ st res,
    List.foldlM contentStep st ps = .ok res →
    ∀ s, mapFind res.frames s =
      match lastIdxWith (fun q => q.id == some s) ps with
      | some k => some (k + st.assets.length)
      | none => mapFind st.frames s := by
  induction ps with
  | nil =>
      intro st res h s
      simp only [List.foldlM_nil] at h
      injection h with h'
      subst h'
      simp [lastIdxWith]
  | cons p rest ih =>
      intro st res h s
      obtain ⟨st1, h1, h2⟩ := foldl_contentStep_cons_inv st p rest res h
      obtain ⟨ha, hfr, -, -⟩ := contentStep_ok_inv st p st1 h1
      have hlen : st1.assets.length = st.assets.length + 1 := by rw [ha]; simp
      have key := ih st1 res h2 s
      rw [key, hlen]
      cases hlast : lastIdxWith (fun q => q.id == some s) rest with
      | some k =>
          simp only [lastIdxWith, hlast]
          congr 1
          omega
      | none =>
          cases hid : p.id with
          | none =>
              have hfr' : st1.frames = st.frames := by rw [hfr, hid]
              have hf : (fun q => q.id == some s) p = false := by simp [hid]
              simp [lastIdxWith, hlast, hf, hfr']
          | some t =>
              have hfr' : st1.frames = mapSet st.frames t st.assets.length := by
                rw [hfr, hid]
              by_cases ht : t = s
              · subst ht
                have hf : (fun q => q.id == some t) p = true := by simp [hid]
                simp [lastIdxWith, hlast, hf, hfr', mapFind_mapSet]
              · have hf : (fun q => q.id == some s) p = false := by simp [hid, ht]
                simp [lastIdxWith, hlast, hf, hfr', mapFind_mapSet, ht]

/-! ## The DOM tree and the host environment

The host DOM is external; the walker only needs elements (tag name,
attributes, the `style.cssText` string, children) and text nodes.
Reflected element properties the code touches (`type`, `media`, `src`
of created/visited elements) are modelled as attributes. -/

inductive DomNode where
  | elem (tag : Str) (attrs : List (Str × Str)) (cssText : Str) (children : List DomNode)
  | textNode (s : Str)
deriving Repr, Inhabited

/-- The external black boxes of the program: the two shared
`TextDecoder` instances, `encodeURIComponent` (total on the scalar
strings of this model), `btoa` (throws on inputs with code points above
255; `none` models the throw, so `btoa (encURI s)` models the fallible
`self.btoa(self.encodeURIComponent(s))` of line 136), the global
`escape`, the DOM parser and the HTML serializer. -/
structure JSEnv where
  utf8Dec : List Nat → Str
  gbkDec : List Nat → Str
  encURI : Str → Str
  btoa : Str → Option Str
  escapeJS : Str → Str
  parseDOM : Str → DomNode
  outerHTML : DomNode → Str

/-- `convertAssetToDataURI(asset, enc)` (lines 151-162).  The `default`
switch branch evaluates `Base64.encode(asset.data)`, but `Base64` is
bound nowhere in the module and is not a standard browser global (the
header's change list removed the js-base64 dependency without removing
this use), so reaching that branch throws a `ReferenceError`. -/
def convertAssetToDataURI (env : JSEnv) (asset : AssetVal) (enc : Str) :
    Except String Str :=
  if asset.encoding = "quoted-printable".data then
    .ok ("data:".data ++ asset.type ++ ";utf8,".data
      ++ env.escapeJS (decodeQuotedPrintable env.utf8Dec env.gbkDec asset.data enc))
  else if asset.encoding = "base64".data then
    .ok ("data:".data ++ asset.type ++ ";base64,".data ++ asset.data)
  else
    .error "ReferenceError: Base64 is not defined"

/-! ## The object store

Asset objects and media-map objects are mutable and shared; the store
gives both an identity.  The frame map created by `parse` is also kept
in `maps`.  `convert` appends fresh map objects (`Object.assign`) and
updates asset data fields in place; no operation below ever changes an
existing map object. -/

structure Store where
  assets : List AssetVal
  maps : List MapVal
deriving Repr, DecidableEq

def getAsset (st : Store) (i : Nat) : AssetVal := st.assets.getD i default

def setAssetData (st : Store) (i : Nat) (d : Str) : Store :=
  { st with assets := st.assets.set i { getAsset st i with data := d } }

def getMapV (st : Store) (r : Nat) : MapVal := st.maps.getD r []

def allocMap (st : Store) (m : MapVal) : Store :=
  { st with maps := st.maps ++ [m] }

/-! ## CSS reference rewriter (`replaceReferences`, lines 109-148)

The loop of the source, with the loop variables (`asset`, `i`,
`reference`) threaded explicitly.  The recursion through `text/css`
entries (`media[path].data = replaceReferences(...)`, line 125) is not
structurally bounded (a stylesheet can reference itself), so the loop
carries fuel; `none` is fuel exhaustion. -/

def rrLoop (env : JSEnv) (fuel : Nat) (store : Store) (mediaRef : Nat)
    (base asset : Str) (i : Nat) : Option (Store × Str) :=
  match fuel with
  | 0 => none
  | fuel + 1 =>
      let iF := jsIndexOf asset "url(".data i
      if iF > 0 then
        let i2 : Nat := iF.toNat + 4
        let reference := jsSubstring asset (i2 : Int) (jsIndexOf asset ")".data i2)
        let path := absoluteURL base
          (reference.filter (fun c => !(c == dquote || c == squote)))
        match mapFind (getMapV store mediaRef) path with
        | none => rrLoop env fuel store mediaRef base asset (i2 + reference.length)
        | some aIdx =>
            let cssStep : Option Store :=
              if (getAsset store aIdx).type = "text/css".data then
                match rrLoop env fuel store mediaRef base (getAsset store aIdx).data 0 with
                | none => none
                | some r => some (setAssetData r.1 aIdx r.2)
              else some store
            match cssStep with
            | none => none
            | some store1 =>
                let a := getAsset store1 aIdx
                let payload : Option Str :=
                  if a.encoding = "base64".data then some a.data
                  else env.btoa (env.encURI a.data)
                let asset2 :=
                  match payload with
                  | some pay =>
                      jsSubstring asset 0 (i2 : Int)
                        ++ squote :: ("data:".data ++ a.type ++ ";base64,".data
                            ++ pay ++ [squote])
                        ++ jsSubstring asset ((i2 + reference.length : Nat) : Int)
                            (asset.length : Int)
                  | none => asset
                rrLoop env fuel store1 mediaRef base asset2 (i2 + reference.length)
      else some (store, asset)

/-- `replaceReferences(media, base, asset)`: the loop started at
`i = 0`. -/
def replaceReferences (env : JSEnv) (fuel : Nat) (store : Store)
    (mediaRef : Nat) (base asset : Str) : Option (Store × Str) :=
  rrLoop env fuel store mediaRef base asset 0

/-! ## Resource inliner (`convert`, lines 435-586)

`convert` on an already-parsed object (the string overload first runs
`parse` and then takes the same path).  The queue-based traversal of
the source processes, for each dequeued node, all of its children
(attribute reads, the per-tag switch) and then enqueues them, so every
node's children receive the per-tag treatment exactly once, when their
parent is processed; `walkNode` realizes the same per-node treatment by
structural descent: dispatch all children of a node, then descend into
each dispatched child that the source would have enqueued attached
(`LINK`/`STYLE` replacements are fresh nodes that are never enqueued,
so they are not descended into; the source's reprocessing of the old,
detached node cannot affect the returned tree and is omitted).  Every
recursive call burns one unit of fuel; `Insufficient fuel` is the
embedding's out-of-fuel marker (reachable only through the source's
unguarded iframe-cycle recursion, spec section 9). -/

def attrGet (attrs : List (Str × Str)) (k : Str) : Option Str :=
  match attrs with
  | [] => none
  | (k', v) :: rest => if k' = k then some v else attrGet rest k

def attrSet (attrs : List (Str × Str)) (k v : Str) : List (Str × Str) :=
  match attrs with
  | [] => [(k, v)]
  | (k', v') :: rest =>
      if k' = k then (k', v) :: rest else (k', v') :: attrSet rest k v

def attrRemove (attrs : List (Str × Str)) (k : Str) : List (Str × Str) :=
  attrs.filter (fun e => !(e.1 == k))

/-- `child.innerHTML` of a `STYLE` element: its text content (style
elements hold only text children). -/
def innerTextOf (kids : List DomNode) : Str :=
  match kids with
  | [] => []
  | DomNode.textNode s :: rest => s ++ innerTextOf rest
  | DomNode.elem _ _ _ _ :: rest => innerTextOf rest

def isElemNode : DomNode → Bool
  | DomNode.elem _ _ _ _ => true
  | DomNode.textNode _ => false

/-- `document.documentElement`: the root element of a document node. -/
def documentElementOf : DomNode → DomNode
  | DomNode.elem _ _ _ kids => (kids.find? isElemNode).getD (DomNode.textNode [])
  | n => n

/-- The bracketed content id computed by the `IFRAME` branch (line
545): `` `<${src.split('cid:')[1]}>` `` — a missing piece 1
stringifies as `undefined`. -/
def bracketCid (srcv : Str) : Str :=
  '<' :: (((splitOnSub "cid:".data srcv).getD 1 "undefined".data) ++ ">".data)

structure ConvOpts where
  convertIframes : Bool
  enc : Str
deriving Repr, DecidableEq

/-- The `{media, frames, index}` argument object of `convert`: the two
maps are store references. -/
structure ParsedRefs where
  media : Nat
  frames : Nat
  index : Str
deriving Repr, DecidableEq

mutual

/-- `convert(mhtml, { convertIframes, enc })` (lines 435-586) on a
parsed object: the index assertions (lines 456-462) and the traversal
from the parsed document root. -/
def convertDoc (env : JSEnv) : Nat → Store → ParsedRefs → ConvOpts →
    Except String (Store × DomNode)
  | 0, _, _, _ => .error "Insufficient fuel"
  | fuel + 1, store, arg, opts =>
      match mapFind (getMapV store arg.media) arg.index with
      | none => .error "MHTML error: invalid index"
      | some aIdx =>
          if (getAsset store aIdx).type = "text/html".data then
            walkNode env fuel store arg.media arg.frames arg.index opts
              (env.parseDOM (getAsset store aIdx).data)
          else .error "MHTML error: invalid index"

/-- Process one dequeued node: give each of its children the per-tag
treatment, then descend into the children the source would enqueue
attached. -/
def walkNode (env : JSEnv) : Nat → Store → Nat → Nat → Str → ConvOpts →
    DomNode → Except String (Store × DomNode)
  | 0, _, _, _, _, _, _ => .error "Insufficient fuel"
  | fuel + 1, store, _, _, _, _, DomNode.textNode s => .ok (store, DomNode.textNode s)
  | fuel + 1, store, mR, fR, ixS, opts, DomNode.elem tag attrs css kids =>
      match dispatchKids env fuel store mR fR ixS opts kids with
      | .error e => .error e
      | .ok (st1, pairs) =>
          match walkFlagged env fuel st1 mR fR ixS opts pairs with
          | .error e => .error e
          | .ok (st2, kids2) => .ok (st2, DomNode.elem tag attrs css kids2)

def dispatchKids (env : JSEnv) : Nat → Store → Nat → Nat → Str → ConvOpts →
    List DomNode → Except String (Store × List (DomNode × Bool))
  | 0, _, _, _, _, _, _ => .error "Insufficient fuel"
  | _ + 1, store, _, _, _, _, [] => .ok (store, [])
  | fuel + 1, store, mR, fR, ixS, opts, k :: ks =>
      match dispatch env fuel store mR fR ixS opts k with
      | .error e => .error e
      | .ok (st1, k1, fl) =>
          match dispatchKids env fuel st1 mR fR ixS opts ks with
          | .error e => .error e
          | .ok (st2, rest) => .ok (st2, (k1, fl) :: rest)

def walkFlagged (env : JSEnv) : Nat → Store → Nat → Nat → Str → ConvOpts →
    List (DomNode × Bool) → Except String (Store × List DomNode)
  | 0, _, _, _, _, _, _ => .error "Insufficient fuel"
  | _ + 1, store, _, _, _, _, [] => .ok (store, [])
  | fuel + 1, store, mR, fR, ixS, opts, (k, fl) :: ks =>
      match (if fl then walkNode env fuel store mR fR ixS opts k
             else .ok (store, k)) with
      | .error e => .error e
      | .ok (st1, k1) =>
          match walkFlagged env fuel st1 mR fR ixS opts ks with
          | .error e => .error e
          | .ok (st2, rest) => .ok (st2, k1 :: rest)

/-- The per-child body of the traversal loop (lines 472-582): read
`href`/`src`, strip `integrity`, and run the per-tag switch.  The
returned flag says whether the node placed into the tree is the one the
source enqueues (false exactly for `LINK`/`STYLE` replacements). -/
def dispatch (env : JSEnv) : Nat → Store → Nat → Nat → Str → ConvOpts →
    DomNode → Except String (Store × DomNode × Bool)
  | 0, _, _, _, _, _, _ => .error "Insufficient fuel"
  | _ + 1, store, _, _, _, _, DomNode.textNode s => .ok (store, DomNode.textNode s, true)
  | fuel + 1, store, mR, fR, ixS, opts, DomNode.elem tag attrs0 css kids =>
      let href := attrGet attrs0 "href".data
      let src := attrGet attrs0 "src".data
      let attrs := attrRemove attrs0 "integrity".data
      if tag = "HEAD".data then
        .ok (store, DomNode.elem tag attrs css
          (DomNode.elem "BASE".data [("target".data, "_parent".data)] [] [] :: kids),
          true)
      else if tag = "LINK".data then
        let hrefKey := href.getD "null".data
        match mapFind (getMapV store mR) hrefKey with
        | some aIdx =>
            if (getAsset store aIdx).type = "text/css".data then
              match replaceReferences env fuel store mR hrefKey
                  (getAsset store aIdx).data with
              | none => .error "Insufficient fuel"
              | some (st1, d1) =>
                  .ok (setAssetData st1 aIdx d1,
                    DomNode.elem "STYLE".data
                      [("type".data, "text/css".data),
                       ("media".data, (attrGet attrs0 "media".data).getD [])] []
                      [DomNode.textNode d1],
                    false)
            else .ok (store, DomNode.elem tag attrs css kids, true)
        | none => .ok (store, DomNode.elem tag attrs css kids, true)
      else if tag = "STYLE".data then
        match replaceReferences env fuel store mR ixS (innerTextOf kids) with
        | none => .error "Insufficient fuel"
        | some (st1, d1) =>
            .ok (st1,
              DomNode.elem "STYLE".data [("type".data, "text/css".data)] []
                [DomNode.textNode d1],
              false)
      else if tag = "IMG".data then
        let srcKey := src.getD "null".data
        let attrs1 :=
          match mapFind (getMapV store mR) srcKey with
          | some aIdx =>
              if jsIncludes (getAsset store aIdx).type "image".data then
                match convertAssetToDataURI env (getAsset store aIdx) opts.enc with
                | .ok uri => attrSet attrs "src".data uri
                | .error _ => attrs
              else attrs
          | none => attrs
        match replaceReferences env fuel store mR ixS css with
        | none => .error "Insufficient fuel"
        | some (st1, css1) => .ok (st1, DomNode.elem tag attrs1 css1 kids, true)
      else if tag = "IFRAME".data then
        if opts.convertIframes = true ∧ src ≠ none ∧ src ≠ some [] then
          let srcv := src.getD []
          let cid := bracketCid srcv
          match mapFind (getMapV store fR) cid with
          | some frIdx =>
              if (getAsset store frIdx).type = "text/html".data then
                let store1 := allocMap store (mapSet (getMapV store mR) cid frIdx)
                match convertDoc env fuel store1
                    ⟨store.maps.length, fR, cid⟩
                    ⟨opts.convertIframes, "utf-8".data⟩ with
                | .error e => .error e
                | .ok (st2, doc) =>
                    .ok (st2,
                      DomNode.elem tag
                        (attrSet attrs "src".data
                          ("data:text/html;charset=utf-8,".data
                            ++ env.encURI (env.outerHTML (documentElementOf doc))))
                        css kids,
                      true)
              else .ok (store, DomNode.elem tag attrs css kids, true)
          | none => .ok (store, DomNode.elem tag attrs css kids, true)
        else .ok (store, DomNode.elem tag attrs css kids, true)
      else
        match replaceReferences env fuel store mR ixS css with
        | none => .error "Insufficient fuel"
        | some (st1, css1) =>
            if css1 ≠ [] then .ok (st1, DomNode.elem tag attrs css1 kids, true)
            else .ok (st1, DomNode.elem tag attrs css kids, true)

end

/-! ## A concrete host environment and stores for witnesses

The black boxes are instantiated with simple executable stand-ins:
byte-identity decoders (the gbk stand-in prepends a marker character so
that the two decoders are observably different), identity
`encodeURIComponent`/`escape`, a total `btoa` stand-in, a DOM parser
defined by cases on the concrete part bodies used by the witnesses, and
a parenthesized serializer. -/

def cSerAttrs : List (Str × Str) → Str
  | [] => []
  | (k, v) :: rest => k ++ "=".data ++ v ++ ",".data ++ cSerAttrs rest

mutual

def cSerialize : DomNode → Str
  | DomNode.textNode s => "T(".data ++ s ++ ")".data
  | DomNode.elem t attrs css kids =>
      "E(".data ++ t ++ ";".data ++ cSerAttrs attrs ++ ";".data ++ css
        ++ ";".data ++ cSerKids kids ++ ")".data

def cSerKids : List DomNode → Str
  | [] => []
  | k :: ks => cSerialize k ++ cSerKids ks

end

/-- A document tree standing for the DOM parse of the outer test part
(an html document holding one iframe that points at `cid:f1`). -/
def outerTestDoc : DomNode :=
  DomNode.elem "#document".data [] []
    [DomNode.elem "HTML".data [] []
      [DomNode.elem "IFRAME".data [("src".data, "cid:f1".data)] [] []]]

/-- A document tree standing for the DOM parse of the nested frame part
(an html document holding one image that points at `pic.png`). -/
def nestedTestDoc : DomNode :=
  DomNode.elem "#document".data [] []
    [DomNode.elem "HTML".data [] []
      [DomNode.elem "IMG".data [("src".data, "pic.png".data)] [] []]]

def cParseDOM (s : Str) : DomNode :=
  if s = "OH".data then outerTestDoc
  else if s = "NH".data then nestedTestDoc
  else DomNode.elem "#document".data [] [] []

def cEnv : JSEnv where
  utf8Dec := fun bs => bs.map Char.ofNat
  gbkDec := fun bs => 'G' :: bs.map Char.ofNat
  encURI := fun s => s
  btoa := fun s => some s
  escapeJS := fun s => s
  parseDOM := cParseDOM
  outerHTML := cSerialize

/-- Like `cEnv`, but `btoa` rejects the data of one designated asset
(`BAD`), standing for a `self.btoa(self.encodeURIComponent(...))` call
that throws. -/
def cEnvFail : JSEnv :=
  { cEnv with btoa := fun s => if s = "BAD".data then none else some s }

/-- Store for the position-zero counterexample and the positive CSS
rewrite example: one base64 png registered at `img.png`. -/
def c3Store : Store :=
  ⟨[⟨"base64".data, "image/png".data, "AAAA".data, none⟩],
   [[("img.png".data, 0)]]⟩

/-- Store with one asset whose encode fails (`BAD`, a raw body the
`btoa` stand-in of `cEnvFail` rejects) and one base64 asset that
embeds fine. -/
def c6Store : Store :=
  ⟨[⟨"raw".data, "image/png".data, "BAD".data, none⟩,
    ⟨"base64".data, "image/gif".data, "GOOD".data, none⟩],
   [[("bad.png".data, 0), ("good.gif".data, 1)]]⟩

/-- Store for the iframe conversion runs: the outer html part, a
quoted-printable png, and the frame part (content id `<f1>`); map 0 is
the outer media map, map 1 the frame map. -/
def c8Store : Store :=
  ⟨[⟨"base64".data, "text/html".data, "OH".data, none⟩,
    ⟨"quoted-printable".data, "image/png".data, "=41=42".data, none⟩,
    ⟨"base64".data, "text/html".data, "NH".data, some "<f1>".data⟩],
   [[("index.html".data, 0), ("pic.png".data, 1)],
    [("<f1>".data, 2)]]⟩


/-! ## Map-object preservation

`replaceReferences` only updates asset data fields; the walker
additionally allocates fresh map objects (`Object.assign({}, media,
...)`) but never writes to an existing one.  `mapsExtends` captures
the resulting relation between stores: old map objects are untouched. -/

theorem rrLoop_maps : ∀ (fuel : Nat) (env : JSEnv) (store : Store) (mR : Nat)
    (base asset : Str) (i : Nat) (res : Store × Str),
    rrLoop env fuel store mR base asset i = some res → res.1.maps = store.maps := by
  intro fuel
  induction fuel with
  | zero =>
      intro env store mR base asset i res h
      simp [rrLoop] at h
  | succ fuel ih =>
      intro env store mR base asset i res h
      simp only [rrLoop] at h
      split at h
      · split at h
        · exact (by rw [ih env store mR base asset _ res h] :
            res.1.maps = store.maps)
        · rename_i aIdx
          split at h
          · exact absurd h (by simp)
          · rename_i store1 heq
            have hst1 : store1.maps = store.maps := by
              split at heq
              · split at heq
                · exact absurd heq (by simp)
                · rename_i r hr
                  injection heq with heq'
                  subst heq'
                  exact ih env store mR base _ 0 r hr
              · injection heq with heq'
                subst heq'
                rfl
            rw [ih env store1 mR base _ _ res h, hst1]
      · injection h with h'
        subst h'
        rfl

def mapsExtends (s s' : Store) : Prop :=
  s.maps.length ≤ s'.maps.length ∧
  ∀ m, m < s.maps.length → s'.maps.get? m = s.maps.get? m

theorem mapsExtends_refl (s : Store) : mapsExtends s s :=
  ⟨Nat.le_refl _, fun _ _ => rfl⟩

theorem mapsExtends_of_eq (s s' : Store) (h : s'.maps = s.maps) :
    mapsExtends s s' := by
  constructor
  · rw [h]
  · intro m _; rw [h]

theorem mapsExtends_trans (s1 s2 s3 : Store)
    (h12 : mapsExtends s1 s2) (h23 : mapsExtends s2 s3) : mapsExtends s1 s3 := by
  obtain ⟨hl12, hg12⟩ := h12
  obtain ⟨hl23, hg23⟩ := h23
  refine ⟨Nat.le_trans hl12 hl23, fun m hm => ?_⟩
  rw [hg23 m (Nat.lt_of_lt_of_le hm hl12), hg12 m hm]

theorem mapsExtends_alloc (s : Store) (m : MapVal) :
    mapsExtends s (allocMap s m) := by
  constructor
  · simp [allocMap]
  · intro k hk
    simp only [allocMap]
    exact List.get?_append hk


theorem convertPreserves : ∀ fuel : Nat,
    (∀ (env : JSEnv) (store : Store) (arg : ParsedRefs) (opts : ConvOpts)
        (out : Store × DomNode),
        convertDoc env fuel store arg opts = .ok out → mapsExtends store out.1)
    ∧ (∀ (env : JSEnv) (store : Store) (mR fR : Nat) (ixS : Str)
        (opts : ConvOpts) (n : DomNode) (out : Store × DomNode),
        walkNode env fuel store mR fR ixS opts n = .ok out → mapsExtends store out.1)
    ∧ (∀ (env : JSEnv) (store : Store) (mR fR : Nat) (ixS : Str)
        (opts : ConvOpts) (ks : List DomNode) (out : Store × List (DomNode × Bool)),
        dispatchKids env fuel store mR fR ixS opts ks = .ok out → mapsExtends store out.1)
    ∧ (∀ (env : JSEnv) (store : Store) (mR fR : Nat) (ixS : Str)
        (opts : ConvOpts) (ps : List (DomNode × Bool)) (out : Store × List DomNode),
        walkFlagged env fuel store mR fR ixS opts ps = .ok out → mapsExtends store out.1)
    ∧ (∀ (env : JSEnv) (store : Store) (mR fR : Nat) (ixS : Str)
        (opts : ConvOpts) (n : DomNode) (out : Store × DomNode × Bool),
        dispatch env fuel store mR fR ixS opts n = .ok out → mapsExtends store out.1) := by
  intro fuel
  induction fuel with
  | zero =>
      refine ⟨?_, ?_, ?_, ?_, ?_⟩
      · intro env store arg opts out h; exact absurd h (by simp [convertDoc])
      · intro env store mR fR ixS opts n out h; exact absurd h (by simp [walkNode])
      · intro env store mR fR ixS opts ks out h; exact absurd h (by simp [dispatchKids])
      · intro env store mR fR ixS opts ps out h; exact absurd h (by simp [walkFlagged])
      · intro env store mR fR ixS opts n out h; exact absurd h (by simp [dispatch])
  | succ fuel ih =>
      obtain ⟨ihC, ihW, ihK, ihF, ihD⟩ := ih
      have hC : ∀ (env : JSEnv) (store : Store) (arg : ParsedRefs) (opts : ConvOpts)
          (out : Store × DomNode),
          convertDoc env (fuel + 1) store arg opts = .ok out → mapsExtends store out.1 := by
        intro env store arg opts out h
        simp only [convertDoc] at h
        split at h
        · exact absurd h (by simp)
        · split at h
          · exact ihW env store arg.media arg.frames arg.index opts _ out h
          · exact absurd h (by simp)
      have hW : ∀ (env : JSEnv) (store : Store) (mR fR : Nat) (ixS : Str)
          (opts : ConvOpts) (n : DomNode) (out : Store × DomNode),
          walkNode env (fuel + 1) store mR fR ixS opts n = .ok out →
          mapsExtends store out.1 := by
        intro env store mR fR ixS opts n out h
        cases n with
        | textNode s =>
            simp only [walkNode] at h
            injection h with h'
            subst h'
            exact mapsExtends_refl store
        | elem tag attrs css kids =>
            simp only [walkNode] at h
            split at h
            · exact absurd h (by simp)
            · rename_i st1 pairs heq1
              split at h
              · exact absurd h (by simp)
              · rename_i st2 kids2 heq2
                injection h with h'
                subst h'
                exact mapsExtends_trans _ _ _
                  (ihK env store mR fR ixS opts kids (st1, pairs) heq1)
                  (ihF env st1 mR fR ixS opts pairs (st2, kids2) heq2)
      have hK : ∀ (env : JSEnv) (store : Store) (mR fR : Nat) (ixS : Str)
          (opts : ConvOpts) (ks : List DomNode) (out : Store × List (DomNode × Bool)),
          dispatchKids env (fuel + 1) store mR fR ixS opts ks = .ok out →
          mapsExtends store out.1 := by
        intro env store mR fR ixS opts ks out h
        cases ks with
        | nil =>
            simp only [dispatchKids] at h
            injection h with h'
            subst h'
            exact mapsExtends_refl store
        | cons k ks =>
            simp only [dispatchKids] at h
            split at h
            · exact absurd h (by simp)
            · rename_i st1 k1 fl heq1
              split at h
              · exact absurd h (by simp)
              · rename_i st2 rest heq2
                injection h with h'
                subst h'
                exact mapsExtends_trans _ _ _
                  (ihD env store mR fR ixS opts k (st1, k1, fl) heq1)
                  (ihK env st1 mR fR ixS opts ks (st2, rest) heq2)
      have hF : ∀ (env : JSEnv) (store : Store) (mR fR : Nat) (ixS : Str)
          (opts : ConvOpts) (ps : List (DomNode × Bool)) (out : Store × List DomNode),
          walkFlagged env (fuel + 1) store mR fR ixS opts ps = .ok out →
          mapsExtends store out.1 := by
        intro env store mR fR ixS opts ps out h
        cases ps with
        | nil =>
            simp only [walkFlagged] at h
            injection h with h'
            subst h'
            exact mapsExtends_refl store
        | cons p ps =>
            obtain ⟨k, fl⟩ := p
            simp only [walkFlagged] at h
            split at h
            · exact absurd h (by simp)
            · rename_i st1 k1 heq1
              split at h
              · exact absurd h (by simp)
              · rename_i st2 rest heq2
                injection h with h'
                subst h'
                have h1 : mapsExtends store st1 := by
                  by_cases hfl : fl = true
                  · rw [if_pos hfl] at heq1
                    exact ihW env store mR fR ixS opts k (st1, k1) heq1
                  · rw [if_neg hfl] at heq1
                    injection heq1 with heq1'
                    have : store = st1 := congrArg Prod.fst heq1'
                    rw [← this]
                    exact mapsExtends_refl store
                exact mapsExtends_trans _ _ _ h1
                  (ihF env st1 mR fR ixS opts ps (st2, rest) heq2)
      refine ⟨hC, hW, hK, hF, ?_⟩
      intro env store mR fR ixS opts n out h
      cases n with
      | textNode s =>
          simp only [dispatch] at h
          injection h with h'
          subst h'
          exact mapsExtends_refl store
      | elem tag attrs0 css kids =>
          simp only [dispatch] at h
          split at h
          · injection h with h'; subst h'; exact mapsExtends_refl store
          · split at h
            · -- LINK
              split at h
              · split at h
                · split at h
                  · exact absurd h (by simp)
                  · rename_i st1 d1 hr
                    injection h with h'
                    subst h'
                    refine mapsExtends_of_eq _ _ ?_
                    exact rrLoop_maps fuel env store mR _ _ 0 (st1, d1) hr
                · injection h with h'; subst h'; exact mapsExtends_refl store
              · injection h with h'; subst h'; exact mapsExtends_refl store
            · split at h
              · -- STYLE
                split at h
                · exact absurd h (by simp)
                · rename_i st1 d1 hr
                  injection h with h'
                  subst h'
                  exact mapsExtends_of_eq _ _ (rrLoop_maps fuel env store mR _ _ 0 (st1, d1) hr)
              · split at h
                · -- IMG
                  split at h
                  · exact absurd h (by simp)
                  · rename_i st1 css1 hr
                    injection h with h'
                    subst h'
                    exact mapsExtends_of_eq _ _
                      (rrLoop_maps fuel env store mR _ _ 0 (st1, css1) hr)
                · split at h
                  · -- IFRAME
                    split at h
                    · split at h
                      · split at h
                        · split at h
                          · exact absurd h (by simp)
                          · rename_i st2 doc hr
                            injection h with h'
                            subst h'
                            exact mapsExtends_trans _ _ _
                              (mapsExtends_alloc store _)
                              (ihC env _ _ _ (st2, doc) hr)
                        · injection h with h'; subst h'; exact mapsExtends_refl store
                      · injection h with h'; subst h'; exact mapsExtends_refl store
                    · injection h with h'; subst h'; exact mapsExtends_refl store
                  · -- default
                    split at h
                    · exact absurd h (by simp)
                    · rename_i st1 css1 hr
                      split at h <;>
                        (injection h with h'
                         subst h'
                         exact mapsExtends_of_eq _ _
                           (rrLoop_maps fuel env store mR _ _ 0 (st1, css1) hr))

/-! ## Claims -/

/-- C7.  For every base and relative string the resolver behaves as
the spec describes: `http://`/`https://` references are returned
unchanged, otherwise the base is split on `/`, its last segment
dropped, and the relative segments are folded with `.` a no-op, `..` a
pop and anything else a push, joined with `/`; in particular
`resolve("a/b/c.html", "../d.css") = "a/d.css"`. -/
theorem C7_absoluteURL_matches_spec :
    (∀ base relative : Str, absoluteURL base relative = resolveSpec base relative)
    ∧ absoluteURL "a/b/c.html".data "../d.css".data = "a/d.css".data := by
  constructor
  · intro base relative
    unfold absoluteURL resolveSpec
    by_cases h : (hasPrefixL "http://".data relative
        || hasPrefixL "https://".data relative) = true
    · rw [if_pos h, if_pos h]
    · rw [if_neg h, if_neg h]
      simp only [urlLoop_eq_foldl, jsPop]
  · rfl

/-- C4.  The claim says the quoted-printable decoder deletes all
trailing space and tab characters of every line.  The code's first
replace, `/[\t\x20]$/gm`, matches a single character per line, so only
one trailing blank is deleted: on the line `ab␣␣` (two trailing
spaces) one space survives, for every choice of byte decoders. -/
theorem C4_trailing_blank_single_deletion :
    ∀ utf8D gbkD : List Nat → Str,
      decodeQuotedPrintable utf8D gbkD "ab  \nc".data "utf-8".data = "ab \nc".data := by
  intro utf8D gbkD
  simp [decodeQuotedPrintable, jsToUpper, decodeEscapeRuns, stripTrailBlank,
    removeSoftBreaks, atLineEnd, isJSLineTerm, isHexDigitJS]

/-- C2.  The claim says assets with an encoding other than
`quoted-printable`/`base64` are converted to
`data:<type>;base64,<base64 of raw data>` without error.  The default
switch branch calls `Base64.encode`, but `Base64` is not defined
anywhere (the js-base64 dependency was removed), so the call throws a
`ReferenceError` for every such asset, here evaluated at a `binary`
asset. -/
theorem C2_default_branch_reference_error :
    ∀ (env : JSEnv) (enc : Str),
      convertAssetToDataURI env
        ⟨"binary".data, "text/plain".data, "hello".data, none⟩ enc
        = .error "ReferenceError: Base64 is not defined" := by
  intro env enc
  rfl

/-- First part of the C1 counterexample: a png part with a location. -/
def c1Part1 : RawPart :=
  ⟨some "base64".data, some "image/png".data, none, some "img.png".data, "I".data⟩

/-- Second part of the C1 counterexample: a text/html part. -/
def c1Part2 : RawPart :=
  ⟨some "quoted-printable".data, some "text/html".data, none,
   some "index.html".data, "H".data⟩

/-- C1, counterexample.  The claim says an input whose first part is
not text/html but whose second part is text/html must be accepted with
the second location as index.  The parser instead fails at the first
part: the `Index not found` assertion requires the very first part to
be the text/html index. -/
theorem C1_counterexample_second_part_html :
    parseParts [c1Part1, c1Part2] = .error "Index not found" := by rfl

/-- C1, amended.  On every accepted input the index is the
content-location of the first part, and acceptance forces that first
part to carry type text/html and a content-location; a text/html part
appearing later cannot supply the index. -/
theorem C1_index_is_first_part_location :
    ∀ (p : RawPart) (rest : List RawPart) (res : ParseState),
      parseParts (p :: rest) = .ok res →
      p.type = some "text/html".data ∧ p.location ≠ none ∧ res.index = p.location := by
  intro p rest res h
  unfold parseParts at h
  obtain ⟨st1, h1, h2⟩ := foldl_contentStep_cons_inv initParseState p rest res h
  obtain ⟨-, -, -, ix, hg, hidx⟩ := contentStep_ok_inv initParseState p st1 h1
  have hni := contentGuards_none_index initParseState p ix rfl hg
  refine ⟨hni.2, ?_, ?_⟩
  · rw [hni.1]; simp
  · rw [foldl_index_stable rest st1 res ix h2 hidx, hni.1]

/-- A single-part input accepted by the parser, for the C1 witness. -/
def c1GoodPart : RawPart :=
  ⟨some "base64".data, some "text/html".data, none, some "index.html".data, "H".data⟩

/-- The parse result of `[c1GoodPart]`. -/
def c1GoodRes : ParseState :=
  ⟨[⟨"base64".data, "text/html".data, "H".data, none⟩], [],
   [("index.html".data, 0)], some "index.html".data⟩

theorem C1_witness :
    c1GoodPart.type = some "text/html".data ∧ c1GoodPart.location ≠ none
    ∧ c1GoodRes.index = c1GoodPart.location :=
  C1_index_is_first_part_location c1GoodPart [] c1GoodRes rfl

/-- C5.  On every accepted input: the asset list is exactly the parts
in order (so map entries holding the same index hold the same part
object, never a copy); the media map answers a location with exactly
the first part declaring it (first writer wins); the frame map answers
an id exactly when some part declares it, with a part declaring it;
and a part carrying both headers that is the media winner for its
location and the frame winner for its id is the same object in both
maps. -/
theorem C5_registry_maps :
    ∀ (ps : List RawPart) (res : ParseState),
      parseParts ps = .ok res →
      res.assets = ps.map partAsset
      ∧ (∀ loc, mapFind res.media loc
          = firstIdxWith (fun q => q.location == some loc) ps)
      ∧ (∀ s, mapFind res.frames s
          = lastIdxWith (fun q => q.id == some s) ps)
      ∧ (∀ loc s j,
          firstIdxWith (fun q => q.location == some loc) ps = some j →
          lastIdxWith (fun q => q.id == some s) ps = some j →
          mapFind res.media loc = mapFind res.frames s) := by
  intro ps res h
  unfold parseParts at h
  have h1 := foldl_assets ps initParseState res h
  have h2 := foldl_media_find ps initParseState res h
  have h3 := foldl_frames_find ps initParseState res h
  have hmedia : ∀ loc, mapFind res.media loc
      = firstIdxWith (fun q => q.location == some loc) ps := by
    intro loc
    have h2l := h2 loc
    cases hfi : firstIdxWith (fun q => q.location == some loc) ps with
    | none => rw [hfi] at h2l; simpa [initParseState, mapFind] using h2l
    | some k => rw [hfi] at h2l; simpa [initParseState, mapFind] using h2l
  have hframes : ∀ s, mapFind res.frames s
      = lastIdxWith (fun q => q.id == some s) ps := by
    intro s
    have h3s := h3 s
    cases hli : lastIdxWith (fun q => q.id == some s) ps with
    | none => rw [hli] at h3s; simpa [initParseState, mapFind] using h3s
    | some k => rw [hli] at h3s; simpa [initParseState, mapFind] using h3s
  refine ⟨by simpa [initParseState] using h1, hmedia, hframes, ?_⟩
  intro loc s j hf hl
  rw [hmedia loc, hframes s, hf, hl]

/-- First part of the C5 witness input: text/html with both headers. -/
def c5p1 : RawPart :=
  ⟨some "base64".data, some "text/html".data, some "<a>".data,
   some "x.html".data, "H".data⟩

/-- Second part of the C5 witness input: a png with a location only. -/
def c5p2 : RawPart :=
  ⟨some "base64".data, some "image/png".data, none, some "y.png".data, "P".data⟩

/-- The parse result of `[c5p1, c5p2]`. -/
def c5Res : ParseState :=
  ⟨[⟨"base64".data, "text/html".data, "H".data, some "<a>".data⟩,
    ⟨"base64".data, "image/png".data, "P".data, none⟩],
   [("<a>".data, 0)],
   [("x.html".data, 0), ("y.png".data, 1)],
   some "x.html".data⟩

theorem C5_witness :
    mapFind c5Res.media "x.html".data
      = firstIdxWith (fun q => q.location == some "x.html".data) [c5p1, c5p2]
    ∧ mapFind c5Res.frames "<a>".data
      = lastIdxWith (fun q => q.id == some "<a>".data) [c5p1, c5p2] :=
  ⟨(C5_registry_maps [c5p1, c5p2] c5Res rfl).2.1 "x.html".data,
   (C5_registry_maps [c5p1, c5p2] c5Res rfl).2.2.1 "<a>".data⟩

/-- C9.  On every accepted input the frame map answers an id with the
last part declaring it (last writer wins, so with duplicate ids the
later part displaces the earlier), while the media map answers a
location with the first part declaring it. -/
theorem C9_frames_last_media_first :
    ∀ (ps : List RawPart) (res : ParseState) (s loc : Str) (j k : Nat),
      parseParts ps = .ok res →
      lastIdxWith (fun q => q.id == some s) ps = some k →
      firstIdxWith (fun q => q.location == some loc) ps = some j →
      mapFind res.frames s = some k ∧ mapFind res.media loc = some j := by
  intro ps res s loc j k h hlast hfirst
  unfold parseParts at h
  have h2 := foldl_media_find ps initParseState res h loc
  have h3 := foldl_frames_find ps initParseState res h s
  rw [hlast] at h3
  rw [hfirst] at h2
  constructor
  · simpa [initParseState, mapFind] using h3
  · simpa [initParseState, mapFind] using h2

/-- First part of the C9 witness input: declares id `<a>` and location
`x.html`. -/
def c9p1 : RawPart :=
  ⟨some "base64".data, some "text/html".data, some "<a>".data,
   some "x.html".data, "H".data⟩

/-- Second part of the C9 witness input: declares the same id and the
same location as the first. -/
def c9p2 : RawPart :=
  ⟨some "base64".data, some "image/png".data, some "<a>".data,
   some "x.html".data, "I".data⟩

/-- The parse result of `[c9p1, c9p2]`: the duplicated id now maps to
part 1, the duplicated location still maps to part 0. -/
def c9Res : ParseState :=
  ⟨[⟨"base64".data, "text/html".data, "H".data, some "<a>".data⟩,
    ⟨"base64".data, "image/png".data, "I".data, some "<a>".data⟩],
   [("<a>".data, 1)],
   [("x.html".data, 0)],
   some "x.html".data⟩

theorem C9_witness :
    mapFind c9Res.frames "<a>".data = some 1
    ∧ mapFind c9Res.media "x.html".data = some 0 :=
  C9_frames_last_media_first [c9p1, c9p2] c9Res "<a>".data "x.html".data 0 1
    rfl rfl rfl

/-- The C3 counterexample asset text: `url('img.png')`, whose only
`url(` occurrence is at string position 0. -/
def c3AssetAtZero : Str := "url(".data ++ squote :: "img.png".data ++ [squote, ')']

/-- Store exercising the skip of a nested occurrence: one media entry
registered at `b`. -/
def c3NestStore : Store :=
  ⟨[⟨"base64".data, "image/png".data, "BB".data, none⟩], [[("b".data, 0)]]⟩

/-- The nested-occurrence asset text `a url(url(b))`: the inner `url(`
occurrence sits at the strictly positive position 6 and its reference
`b` resolves into the media map. -/
def c3AssetNested : Str := "a url(url(b))".data

/-- C3, counterexample.  The claim says every `url(` occurrence whose
reference resolves into the media map is replaced, including an
occurrence at string position 0.  Both parts fail on the code.  At
position 0 the loop condition `(i = asset.indexOf('url(', i)) > 0` is
false, so the scan exits immediately and the string comes back
byte-for-byte unchanged (store untouched) although the reference
resolves to a registered media entry.  Nor is every strictly positive
occurrence processed: on `a url(url(b))` the outer occurrence's
reference `url(b` misses the map and the loop update
`i += reference.length` resumes the search just past it, so the inner
occurrence (position 6, reference `b`, a media hit) is never looked at
and the string is again returned unchanged. -/
theorem C3_counterexample_position_zero :
    (replaceReferences cEnv 10 c3Store 0 "index.html".data c3AssetAtZero
      = some (c3Store, c3AssetAtZero)
    ∧ mapFind (getMapV c3Store 0)
        (absoluteURL "index.html".data "img.png".data) = some 0)
    ∧ (replaceReferences cEnv 10 c3NestStore 0 "index.html".data c3AssetNested
      = some (c3NestStore, c3AssetNested)
    ∧ mapFind (getMapV c3NestStore 0)
        (absoluteURL "index.html".data "b".data) = some 0) := by
  exact ⟨⟨rfl, rfl⟩, ⟨rfl, rfl⟩⟩

/-- The spec's positive example: `background:url('img.png')`. -/
def c3AssetPositive : Str :=
  "background:url(".data ++ squote :: "img.png".data ++ [squote, ')']

/-- The rewritten form: `background:url('data:image/png;base64,AAAA')`. -/
def c3AssetRewritten : Str :=
  "background:url(".data ++ squote :: "data:image/png;base64,AAAA".data
    ++ [squote, ')']

/-- C3, amended.  The scan replaces exactly the occurrences it
reaches, characterized by three laws proved for all inputs.  Exit law:
when the first `url(` occurrence of the asset sits at position 0 (or
there is none), the loop condition fails and the whole string is
returned unchanged, media hit or not.  Miss law: an iteration finding
`url(` at a strictly positive position whose quote-stripped,
base-resolved reference misses the media map leaves store and text
unchanged and resumes the search just past the reference — thereby
skipping any occurrence nested inside it.  Hit law: when the resolved
reference names a non-css media entry whose payload is available (the
stored data for base64 entries, `btoa(encodeURIComponent(data))`
otherwise), the reference text including its quotes is spliced into a
`'data:<type>;base64,<payload>'` literal and the scan resumes the same
way.  (For text/css entries the entry's body is first rewritten in
place and then the same splice happens; a failing payload leaves the
reference unchanged — claim C6.)  Last conjunct: the spec's own
example, `"background:url('img.png')"` with a base64 png entry becomes
`"background:url('data:image/png;base64,AAAA')"`. -/
theorem C3_scan_step_laws :
    (∀ (env : JSEnv) (fuel : Nat) (store : Store) (mR : Nat) (base asset : Str),
      jsIndexOf asset "url(".data 0 ≤ 0 →
      replaceReferences env (fuel + 1) store mR base asset = some (store, asset))
    ∧ (∀ (env : JSEnv) (fuel : Nat) (store : Store) (mR : Nat)
        (base asset : Str) (i : Nat) (iF : Int) (ref : Str),
      jsIndexOf asset "url(".data i = iF →
      iF > 0 →
      jsSubstring asset (iF.toNat + 4 : Nat)
        (jsIndexOf asset ")".data (iF.toNat + 4)) = ref →
      mapFind (getMapV store mR)
        (absoluteURL base (ref.filter (fun c => !(c == dquote || c == squote))))
        = none →
      rrLoop env (fuel + 1) store mR base asset i
        = rrLoop env fuel store mR base asset (iF.toNat + 4 + ref.length))
    ∧ (∀ (env : JSEnv) (fuel : Nat) (store : Store) (mR : Nat)
        (base asset : Str) (i : Nat) (iF : Int) (ref : Str) (aIdx : Nat) (pay : Str),
      jsIndexOf asset "url(".data i = iF →
      iF > 0 →
      jsSubstring asset (iF.toNat + 4 : Nat)
        (jsIndexOf asset ")".data (iF.toNat + 4)) = ref →
      mapFind (getMapV store mR)
        (absoluteURL base (ref.filter (fun c => !(c == dquote || c == squote))))
        = some aIdx →
      (getAsset store aIdx).type ≠ "text/css".data →
      (if (getAsset store aIdx).encoding = "base64".data
        then some (getAsset store aIdx).data
        else env.btoa (env.encURI (getAsset store aIdx).data)) = some pay →
      rrLoop env (fuel + 1) store mR base asset i
        = rrLoop env fuel store mR base
            (jsSubstring asset 0 (iF.toNat + 4 : Nat)
              ++ squote :: ("data:".data ++ (getAsset store aIdx).type
                  ++ ";base64,".data ++ pay ++ [squote])
              ++ jsSubstring asset ((iF.toNat + 4 + ref.length : Nat) : Int)
                  (asset.length : Int))
            (iF.toNat + 4 + ref.length))
    ∧ replaceReferences cEnv 10 c3Store 0 "index.html".data c3AssetPositive
        = some (c3Store, c3AssetRewritten) := by
  refine ⟨?_, ?_, ?_, rfl⟩
  · intro env fuel store mR base asset h
    have hneg : ¬ jsIndexOf asset "url(".data 0 > 0 := by omega
    simp [replaceReferences, rrLoop, hneg]
  · intro env fuel store mR base asset i iF ref hIF hpos href hfind
    subst hIF
    subst href
    simp only [rrLoop, if_pos hpos, hfind]
  · intro env fuel store mR base asset i iF ref aIdx pay hIF hpos href hfind htype hpay
    subst hIF
    subst href
    simp only [rrLoop, if_pos hpos, hfind, if_neg htype, hpay]

theorem C3_witness :
    replaceReferences cEnv 5 c3Store 0 "b.html".data "url(x)".data
      = some (c3Store, "url(x)".data)
    ∧ rrLoop cEnv 8 c3NestStore 0 "index.html".data c3AssetNested 0
        = rrLoop cEnv 7 c3NestStore 0 "index.html".data c3AssetNested 11
    ∧ rrLoop cEnv 10 c3Store 0 "index.html".data c3AssetPositive 0
        = rrLoop cEnv 9 c3Store 0 "index.html".data c3AssetRewritten 24 :=
  ⟨C3_scan_step_laws.1 cEnv 4 c3Store 0 "b.html".data "url(x)".data (by decide),
   C3_scan_step_laws.2.1 cEnv 7 c3NestStore 0 "index.html".data c3AssetNested 0
     2 "url(b".data (by decide) (by decide) (by decide) (by decide),
   C3_scan_step_laws.2.2.1 cEnv 9 c3Store 0 "index.html".data c3AssetPositive 0
     11 (squote :: "img.png".data ++ [squote]) 0 "AAAA".data
     (by decide) (by decide) (by decide) (by decide) (by decide) (by decide)⟩

/-- The C6 two-reference asset: the first reference resolves to the
asset whose encode fails, the second to one that embeds fine. -/
def c6Asset : Str :=
  "a url(".data ++ squote :: "bad.png".data ++ [squote] ++ ") b url(".data
    ++ squote :: "good.gif".data ++ [squote] ++ ") c".data

/-- The expected outcome: the failing reference byte-for-byte
unchanged, the later reference embedded. -/
def c6Expected : Str :=
  "a url(".data ++ squote :: "bad.png".data ++ [squote] ++ ") b url(".data
    ++ squote :: "data:image/gif;base64,GOOD".data ++ [squote] ++ ") c".data

/-- C6.  First conjunct: at any loop position, when the reference hits
a non-css media entry whose base64 re-encoding throws
(`btoa (encodeURIComponent data)` fails), the iteration leaves the
store and the asset text exactly as they were and continues the scan
just past that reference — the error is caught, never propagated.
Second conjunct: a concrete scan in which the first reference's encode
fails and the later reference is still rewritten. -/
theorem C6_encode_failure_recovers :
    (∀ (env : JSEnv) (fuel : Nat) (store : Store) (mR : Nat)
        (base asset : Str) (i : Nat) (iF : Int) (ref : Str) (aIdx : Nat),
      jsIndexOf asset "url(".data i = iF →
      iF > 0 →
      jsSubstring asset (iF.toNat + 4 : Nat)
        (jsIndexOf asset ")".data (iF.toNat + 4)) = ref →
      mapFind (getMapV store mR)
        (absoluteURL base (ref.filter (fun c => !(c == dquote || c == squote))))
        = some aIdx →
      (getAsset store aIdx).type ≠ "text/css".data →
      (getAsset store aIdx).encoding ≠ "base64".data →
      env.btoa (env.encURI (getAsset store aIdx).data) = none →
      rrLoop env (fuel + 1) store mR base asset i
        = rrLoop env fuel store mR base asset (iF.toNat + 4 + ref.length))
    ∧ replaceReferences cEnvFail 10 c6Store 0 "index.html".data c6Asset
        = some (c6Store, c6Expected) := by
  constructor
  · intro env fuel store mR base asset i iF ref aIdx hIF hpos href hfind htype henc hbtoa
    subst hIF
    subst href
    simp only [rrLoop, if_pos hpos, hfind, if_neg htype, if_neg henc, hbtoa]
  · rfl

/-- The C6 witness asset: one reference, at position 2, to the failing
asset. -/
def c6WAsset : Str := "x url(".data ++ squote :: "bad.png".data ++ [squote, ')', ' ', 'y']

theorem C6_witness :
    rrLoop cEnvFail 8 c6Store 0 "index.html".data c6WAsset 0
      = rrLoop cEnvFail 7 c6Store 0 "index.html".data c6WAsset 15 :=
  C6_encode_failure_recovers.1 cEnvFail 7 c6Store 0 "index.html".data c6WAsset 0
    2 (squote :: "bad.png".data ++ [squote]) 0
    (by decide) (by decide) (by decide) (by decide) (by decide) (by decide) rfl

/-- C10.  First conjunct: a successful conversion never changes any
pre-existing map object — in particular the outer conversion's media
map keeps exactly its keys and entries across every nested iframe
conversion.  Second conjunct: when the iframe branch fires, the media
map handed to the recursive call is a freshly allocated object (placed
at the first free store slot) holding the outer map's entries extended
with the one frame entry under the bracketed id, and it is still there
untouched when the dispatch returns. -/
theorem C10_iframe_media_map_fresh :
    (∀ (env : JSEnv) (fuel : Nat) (store : Store) (arg : ParsedRefs)
        (opts : ConvOpts) (out : Store × DomNode),
      convertDoc env fuel store arg opts = .ok out →
      ∀ m, m < store.maps.length → out.1.maps.get? m = store.maps.get? m)
    ∧ (∀ (env : JSEnv) (fuel : Nat) (store : Store) (mR fR : Nat) (ixS : Str)
        (e : Str) (attrs0 : List (Str × Str)) (css : Str) (kids : List DomNode)
        (srcv : Str) (frIdx : Nat) (out : Store × DomNode × Bool),
      attrGet attrs0 "src".data = some srcv →
      srcv ≠ [] →
      mapFind (getMapV store fR) (bracketCid srcv) = some frIdx →
      (getAsset store frIdx).type = "text/html".data →
      dispatch env (fuel + 1) store mR fR ixS ⟨true, e⟩
          (DomNode.elem "IFRAME".data attrs0 css kids) = .ok out →
      out.1.maps.get? store.maps.length
        = some (mapSet (getMapV store mR) (bracketCid srcv) frIdx)) := by
  constructor
  · intro env fuel store arg opts out h m hm
    exact ((convertPreserves fuel).1 env store arg opts out h).2 m hm
  · intro env fuel store mR fR ixS e attrs0 css kids srcv frIdx out
      hsrc hne hfind htype hd
    obtain ⟨o1, o2, o3⟩ := out
    cases hc : convertDoc env fuel
        (allocMap store (mapSet (getMapV store mR) (bracketCid srcv) frIdx))
        ⟨store.maps.length, fR, bracketCid srcv⟩
        ⟨true, "utf-8".data⟩ with
    | error err =>
        simp [dispatch, hsrc, hne, hfind, htype, hc] at hd
    | ok r =>
        obtain ⟨st2, doc⟩ := r
        simp [dispatch, hsrc, hne, hfind, htype, hc] at hd
        have hext := ((convertPreserves fuel).1 env
          (allocMap store (mapSet (getMapV store mR) (bracketCid srcv) frIdx))
          ⟨store.maps.length, fR, bracketCid srcv⟩
          ⟨true, "utf-8".data⟩ (st2, doc) hc)
        have hget := hext.2 store.maps.length (by simp [allocMap])
        have ho1 : o1 = st2 := hd.1.symm
        show o1.maps.get? store.maps.length = _
        rw [ho1, hget]
        exact List.get?_concat_length _ _

/-- The nested frame document after conversion: the IMG src holds the
data URI produced with the default utf-8 decoder (`AB` = utf-8 stand-in
decode of the bytes 0x41 0x42; the gbk stand-in would give `GAB`). -/
def c8InnerUtf8 : DomNode :=
  DomNode.elem "HTML".data [] []
    [DomNode.elem "IMG".data
      [("src".data, "data:image/png;utf8,AB".data)] [] []]

/-- The iframe element after conversion: its src is the
`data:text/html` URI of the serialized nested conversion. -/
def c8IframeOut : DomNode :=
  DomNode.elem "IFRAME".data
    [("src".data,
      "data:text/html;charset=utf-8,".data ++ cSerialize c8InnerUtf8)] [] []

/-- The whole outer document after conversion. -/
def c8OutDoc : DomNode :=
  DomNode.elem "#document".data [] []
    [DomNode.elem "HTML".data [] [] [c8IframeOut]]

/-- The store after conversion: assets untouched, the two original
maps untouched, and one fresh media map (outer entries plus `<f1>`). -/
def c8OutStore : Store :=
  ⟨c8Store.assets,
   c8Store.maps ++
     [[("index.html".data, 0), ("pic.png".data, 1), ("<f1>".data, 2)]]⟩

/-- The iframe element of the outer test document. -/
def c8IframeNode : DomNode :=
  DomNode.elem "IFRAME".data [("src".data, "cid:f1".data)] [] []

set_option maxHeartbeats 4000000 in
theorem C10_witness :
    c8OutStore.maps.get? 0 = c8Store.maps.get? 0
    ∧ c8OutStore.maps.get? c8Store.maps.length
        = some (mapSet (getMapV c8Store 0) (bracketCid "cid:f1".data) 2) := by
  have hrun : convertDoc cEnv 40 c8Store ⟨0, 1, "index.html".data⟩
      ⟨true, "gbk".data⟩ = .ok (c8OutStore, c8OutDoc) := by
    simp [convertDoc, walkNode, dispatchKids, walkFlagged, dispatch, getMapV,
      getAsset, mapFind, mapSet, allocMap, cParseDOM, outerTestDoc, nestedTestDoc,
      cEnv, bracketCid, splitOnSub, attrGet, attrSet, attrRemove, innerTextOf,
      rrLoop, jsIndexOf, findSubIdx, hasPrefixL, convertAssetToDataURI,
      decodeQuotedPrintable, decodeEscapeRuns, qpRun, jsToUpper, documentElementOf,
      cSerialize, cSerKids, cSerAttrs, isElemNode, jsIncludes, stripTrailBlank,
      removeSoftBreaks, atLineEnd, isJSLineTerm, isHexDigitJS, hexVal, absoluteURL,
      splitOnChar, joinSlash, jsPop, jsSubstring, clampIdx, urlLoop, c8Store,
      List.getD, setAssetData, replaceReferences, c8OutStore, c8OutDoc,
      c8InnerUtf8, c8IframeOut, squote, dquote]
  have hdisp : dispatch cEnv 39 c8Store 0 1 "index.html".data ⟨true, "gbk".data⟩
      c8IframeNode = .ok (c8OutStore, c8IframeOut, true) := by
    simp [convertDoc, walkNode, dispatchKids, walkFlagged, dispatch, getMapV,
      getAsset, mapFind, mapSet, allocMap, cParseDOM, outerTestDoc, nestedTestDoc,
      cEnv, bracketCid, splitOnSub, attrGet, attrSet, attrRemove, innerTextOf,
      rrLoop, jsIndexOf, findSubIdx, hasPrefixL, convertAssetToDataURI,
      decodeQuotedPrintable, decodeEscapeRuns, qpRun, jsToUpper, documentElementOf,
      cSerialize, cSerKids, cSerAttrs, isElemNode, jsIncludes, stripTrailBlank,
      removeSoftBreaks, atLineEnd, isJSLineTerm, isHexDigitJS, hexVal, absoluteURL,
      splitOnChar, joinSlash, jsPop, jsSubstring, clampIdx, urlLoop, c8Store,
      List.getD, setAssetData, replaceReferences, c8OutStore, c8IframeNode,
      c8InnerUtf8, c8IframeOut, squote, dquote]
  refine ⟨C10_iframe_media_map_fresh.1 cEnv 40 c8Store ⟨0, 1, "index.html".data⟩
      ⟨true, "gbk".data⟩ (c8OutStore, c8OutDoc) hrun 0 (by decide), ?_⟩
  exact C10_iframe_media_map_fresh.2 cEnv 38 c8Store 0 1 "index.html".data
    "gbk".data [("src".data, "cid:f1".data)] [] [] "cid:f1".data 2
    (c8OutStore, c8IframeOut, true) rfl (by decide)
    (by simp [bracketCid, splitOnSub, getMapV, c8Store, mapFind, hasPrefixL,
      List.getD])
    rfl hdisp

/-- C8.  First conjunct: the dispatch of an `IFRAME` element does not
depend on the caller's `enc` option at all — the recursive `convert`
call receives only `convertIframes` and the default `utf-8` (line 557
passes `{ convertIframes }`).  The remaining conjuncts run the whole
conversion on a document with a nested frame holding a
quoted-printable image, under `enc = 'gbk'`: the run coincides with
the `enc = 'utf-8'` run, and its nested IMG data URI holds the utf-8
decode `AB` of the image bytes even though the (distinct) gbk decoder
would have produced `GAB`. -/
theorem C8_iframe_recursion_default_enc :
    (∀ (env : JSEnv) (fuel : Nat) (store : Store) (mR fR : Nat) (ixS : Str)
        (cv : Bool) (e1 e2 : Str) (attrs : List (Str × Str)) (css : Str)
        (kids : List DomNode),
      dispatch env fuel store mR fR ixS ⟨cv, e1⟩
          (DomNode.elem "IFRAME".data attrs css kids)
        = dispatch env fuel store mR fR ixS ⟨cv, e2⟩
          (DomNode.elem "IFRAME".data attrs css kids))
    ∧ convertDoc cEnv 40 c8Store ⟨0, 1, "index.html".data⟩ ⟨true, "gbk".data⟩
        = convertDoc cEnv 40 c8Store ⟨0, 1, "index.html".data⟩ ⟨true, "utf-8".data⟩
    ∧ convertDoc cEnv 40 c8Store ⟨0, 1, "index.html".data⟩ ⟨true, "gbk".data⟩
        = .ok (c8OutStore, c8OutDoc)
    ∧ cEnv.gbkDec [0x41, 0x42] ≠ cEnv.utf8Dec [0x41, 0x42] := by
  refine ⟨?_, ?_, ?_, by decide⟩
  · intro env fuel store mR fR ixS cv e1 e2 attrs css kids
    cases fuel with
    | zero => simp [dispatch]
    | succ f => simp [dispatch]
  · set_option maxHeartbeats 4000000 in
    simp [convertDoc, walkNode, dispatchKids, walkFlagged, dispatch, getMapV,
      getAsset, mapFind, mapSet, allocMap, cParseDOM, outerTestDoc, nestedTestDoc,
      cEnv, bracketCid, splitOnSub, attrGet, attrSet, attrRemove, innerTextOf,
      rrLoop, jsIndexOf, findSubIdx, hasPrefixL, convertAssetToDataURI,
      decodeQuotedPrintable, decodeEscapeRuns, qpRun, jsToUpper, documentElementOf,
      cSerialize, cSerKids, cSerAttrs, isElemNode, jsIncludes, stripTrailBlank,
      removeSoftBreaks, atLineEnd, isJSLineTerm, isHexDigitJS, hexVal, absoluteURL,
      splitOnChar, joinSlash, jsPop, jsSubstring, clampIdx, urlLoop, c8Store,
      List.getD, setAssetData, replaceReferences]
  · set_option maxHeartbeats 4000000 in
    simp [convertDoc, walkNode, dispatchKids, walkFlagged, dispatch, getMapV,
      getAsset, mapFind, mapSet, allocMap, cParseDOM, outerTestDoc, nestedTestDoc,
      cEnv, bracketCid, splitOnSub, attrGet, attrSet, attrRemove, innerTextOf,
      rrLoop, jsIndexOf, findSubIdx, hasPrefixL, convertAssetToDataURI,
      decodeQuotedPrintable, decodeEscapeRuns, qpRun, jsToUpper, documentElementOf,
      cSerialize, cSerKids, cSerAttrs, isElemNode, jsIncludes, stripTrailBlank,
      removeSoftBreaks, atLineEnd, isJSLineTerm, isHexDigitJS, hexVal, absoluteURL,
      splitOnChar, joinSlash, jsPop, jsSubstring, clampIdx, urlLoop, c8Store,
      List.getD, setAssetData, replaceReferences, c8OutStore, c8OutDoc,
      c8InnerUtf8, c8IframeOut, squote, dquote]
